import Mathlib

/-!
# conbot-service: the `/convert` handler

A shallow embedding of `src/main.go` (package `main`): the two wire records,
the two formatters, `calcConversion`, `uriBuilder`, `exchangeRatioRequest`
and `convert`, followed by the properties of the handler.

The Go standard library calls the handler makes are modelled as documented:

* `float64` values and their product (`Float64`, `Float64.mul`);
* `strconv.ParseFloat(s, 64)` (`parseFloat`);
* `json.NewEncoder(w).Encode(v)` (`encode`), which marshals first and writes
  only when marshalling succeeds, and rejects NaN and infinities;
* the `http.ResponseWriter` is the log of the calls made on it, and `WriteHeader`
  rejects a status code as the server's writer does;
* `Header.Add` stores the canonical form of the key;
* everything outside the process (environment variables, URL acceptance by
  `http.NewRequest`, the answer of `http.DefaultClient.Do`, what decoding the body
  leaves in the variable and whether it reports an error) is a field of `World`.

A nil dereference panics, and so does `WriteHeader` on a status code that is not three
digits; functions that can panic say so in their result.
-/

namespace Conbot

/-! ## float64 -/

/-- A `float64` value. Finite values are `(-1)^neg * mant * 2^exp`; the results of
`Float64.round` have `mant < 2^53`, `-1074 ≤ exp ≤ 971`, and `2^52 ≤ mant` unless
`exp = -1074` (subnormals), zero being `fin neg 0 0`. All NaN payloads are one value. -/
inductive Float64 where
  | nan
  | inf (neg : Bool)
  | fin (neg : Bool) (mant : Nat) (exp : Int)
  deriving DecidableEq, Repr

namespace Float64

/-- The zero value of a `float64` variable (`var ratio float64`). -/
def zero : Float64 := fin false 0 0

/-- Neither NaN nor an infinity (`!math.IsInf(f, 0) && !math.IsNaN(f)`). -/
def isFinite : Float64 → Bool
  | fin _ _ _ => true
  | _ => false

/-- Number of binary digits of `n` (0 for 0); `fuel` bounds the recursion and any
`fuel ≥ n` is enough. -/
def bitLength : Nat → Nat → Nat
  | 0, _ => 0
  | fuel + 1, n => if n = 0 then 0 else 1 + bitLength fuel (n / 2)

/-- The finite value `mant * 2^exp` with sign `neg`, or the infinity of that sign when
the exponent is above 971, the exponent of the largest finite `float64`. -/
def pack (neg : Bool) (mant : Nat) (exp : Int) : Float64 :=
  if 971 < exp then inf neg
  else if mant = 0 then fin neg 0 0
  else fin neg mant exp

/-- The exponent at which `num / den` (both positive) has a 53-bit integer quotient, but
not below -1074, the exponent of the subnormals. -/
def exponentOf (num den : Nat) : Int :=
  let e1 : Int := (bitLength num num : Int) - (bitLength den den : Int) - 52
  let e2 : Int := if num * 2 ^ (-e1).toNat / (den * 2 ^ e1.toNat) < 2 ^ 52 then e1 - 1 else e1
  if e2 < -1074 then -1074 else e2

/-- The quotient of `num / den` by `2^e`, rounded to the nearest integer with ties to the
even one, as a `float64` of exponent `e`; a carry out of 53 bits moves to the next exponent. -/
def roundAt (neg : Bool) (num den : Nat) (e : Int) : Float64 :=
  let n := num * 2 ^ (-e).toNat
  let d := den * 2 ^ e.toNat
  let q := n / d
  let r := n % d
  let q1 := if d < 2 * r ∨ (2 * r = d ∧ q % 2 = 1) then q + 1 else q
  if q1 = 2 ^ 53 then pack neg (2 ^ 52) (e + 1) else pack neg q1 e

/-- Round-to-nearest, ties-to-even, of the exact rational `num / den` (`den > 0`) with
sign `neg` to binary64; a value too large for the format becomes an infinity and one
too small becomes a zero. -/
def round (neg : Bool) (num den : Nat) : Float64 :=
  if num = 0 then fin neg 0 0 else roundAt neg num den (exponentOf num den)

/-- The IEEE 754 binary64 product (Go's `*` on `float64`): NaN is absorbing,
infinity times zero is NaN, otherwise the sign is the exclusive or of the signs and the
exact product is rounded once. -/
def mul : Float64 → Float64 → Float64
  | nan, _ => nan
  | _, nan => nan
  | inf a, inf b => inf (a != b)
  | inf a, fin b m _ => if m = 0 then nan else inf (a != b)
  | fin a m _, inf b => if m = 0 then nan else inf (a != b)
  | fin a m1 e1, fin b m2 e2 =>
      round (a != b) (m1 * m2 * 2 ^ (e1 + e2).toNat) (2 ^ (-(e1 + e2)).toNat)

end Float64

/-! ## strconv.ParseFloat

`ParseFloat` is documented to return the nearest `float64` (IEEE 754 unbiased rounding)
of a well-formed decimal or hexadecimal literal, `±Inf` with `ErrRange` when the literal
is too large, `0` with `ErrSyntax` when it is not well formed, and to accept the names
`NaN`, `Inf` and `Infinity` without regard to case. The scanner below follows
`readFloat`, `special` and `underscoreOK` of `strconv/atof.go`; where the library cuts
the mantissa to the digits a `uint64` holds and repairs the result later, the model
keeps every digit and rounds the exact value once. -/

/-- The errors `strconv.ParseFloat` reports (`ErrSyntax`, `ErrRange`). -/
inductive NumError where
  | errSyn
  | errRange
  deriving DecidableEq, Repr

/-- Go's `lower(c) = c | ('x' - 'X')`, on character codes. -/
def lower (c : Char) : Nat := c.toNat ||| 32

/-- Length of the longest common start of `s` and the lower-case word `w`, upper-case
ASCII letters of `s` folded to lower case. -/
def commonPrefixLenIgnoreCase : List Char → List Char → Nat
  | c :: s, p :: w =>
      let c1 := if 65 ≤ c.toNat ∧ c.toNat ≤ 90 then c.toNat + 32 else c.toNat
      if c1 = p.toNat then 1 + commonPrefixLenIgnoreCase s w else 0
  | _, _ => 0

/-- The `inf` / `infinity` branch of `special`: anything between the two spellings
consumes only `inf`. -/
def specialInf (neg : Bool) (nsign : Nat) (s : List Char) : Option (Float64 × Nat) :=
  let n := commonPrefixLenIgnoreCase s "infinity".toList
  let n := if 3 < n ∧ n < 8 then 3 else n
  if n = 3 ∨ n = 8 then some (Float64.inf neg, nsign + n) else none

/-- The named values: an optionally signed infinity, or an unsigned NaN, at the start of
`s`, with the number of characters consumed. -/
def special (s : List Char) : Option (Float64 × Nat) :=
  match s with
  | [] => none
  | c :: t =>
      if c = '+' ∨ c = '-' then specialInf (c = '-') 1 t
      else if c = 'i' ∨ c = 'I' then specialInf false 0 s
      else if c = 'n' ∨ c = 'N' then
        if commonPrefixLenIgnoreCase s "nan".toList = 3 then some (Float64.nan, 3) else none
      else none

/-- The scanner state of the mantissa loop of `readFloat`. -/
structure Digits where
  mantissa : Nat
  nd : Nat
  dp : Int
  sawdot : Bool
  sawdigits : Bool
  underscores : Bool
  deriving DecidableEq, Repr

/-- The mantissa loop of `readFloat`: underscores are skipped and remembered, the first
dot fixes the decimal point, leading zeros only move it, every other digit is
appended; the loop stops at a second dot or at any other character and returns what is
left of the input. -/
def readDigits (base : Nat) : List Char → Digits → Digits × List Char
  | [], st => (st, [])
  | c :: t, st =>
      if c = '_' then readDigits base t { st with underscores := true }
      else if c = '.' then
        if st.sawdot then (st, c :: t)
        else readDigits base t { st with sawdot := true, dp := st.nd }
      else if 48 ≤ c.toNat ∧ c.toNat ≤ 57 then
        if c = '0' ∧ st.nd = 0 then
          readDigits base t { st with sawdigits := true, dp := st.dp - 1 }
        else
          readDigits base t { st with sawdigits := true, nd := st.nd + 1,
                                      mantissa := st.mantissa * base + (c.toNat - 48) }
      else if base = 16 ∧ 97 ≤ lower c ∧ lower c ≤ 102 then
        readDigits base t { st with sawdigits := true, nd := st.nd + 1,
                                    mantissa := st.mantissa * 16 + (lower c - 97 + 10) }
      else (st, c :: t)

/-- The exponent digits of `readFloat`: digits and underscores are consumed, and the
value stops growing once it has reached 10000. -/
def readExponent : List Char → Nat → Bool → Nat × Bool × List Char
  | [], e, us => (e, us, [])
  | c :: t, e, us =>
      if 48 ≤ c.toNat ∧ c.toNat ≤ 57 then
        readExponent t (if e < 10000 then e * 10 + (c.toNat - 48) else e) us
      else if c = '_' then readExponent t e true
      else (e, us, c :: t)

/-- Go's `underscoreOK`, after the optional sign: `saw` is the class of the last
character (`'0'` digit or base prefix, `'_'` underscore, `'!'` anything else, `'^'` start);
an underscore must follow a digit and be followed by one. -/
def underscoreScan (hex : Bool) : List Char → Char → Bool
  | [], saw => saw != '_'
  | c :: t, saw =>
      if (48 ≤ c.toNat ∧ c.toNat ≤ 57) ∨ (hex = true ∧ 97 ≤ lower c ∧ lower c ≤ 102) then
        underscoreScan hex t '0'
      else if c = '_' then
        if saw != '0' then false else underscoreScan hex t '_'
      else if saw = '_' then false
      else underscoreScan hex t '!'

/-- Go's `underscoreOK`: whether the underscores of the literal `s` separate digits (or
a base prefix and a digit). -/
def underscoreOK (s : List Char) : Bool :=
  let s1 := match s with
    | c :: t => if c = '-' ∨ c = '+' then t else s
    | [] => s
  match s1 with
  | a :: b :: t =>
      if a = '0' ∧ (lower b = 98 ∨ lower b = 111 ∨ lower b = 120) then
        underscoreScan (lower b = 120) t '0'
      else underscoreScan false s1 '^'
  | _ => underscoreScan false s1 '^'

/-- What `readFloat` returns when it accepts a literal: the sign, whether the literal is
hexadecimal, the mantissa digits as a number, the exponent of the base (10, or 2 for a
hexadecimal literal) and the number of characters consumed. -/
structure Literal where
  neg : Bool
  hex : Bool
  mantissa : Nat
  exp : Int
  n : Nat
  deriving DecidableEq, Repr

/-- Go's `readFloat`: optional sign, optional `0x`, mantissa, optional exponent (required
after a hexadecimal mantissa), then the underscore check on the consumed text. `none` is
`ok == false`. -/
def readFloat (s : List Char) : Option Literal :=
  match s with
  | [] => none
  | c0 :: t0 =>
    let neg := decide (c0 = '-')
    let s1 := if c0 = '+' ∨ c0 = '-' then t0 else s
    let hex : Bool := match s1 with
      | a :: b :: _ :: _ => decide (a = '0' ∧ lower b = 120)
      | _ => false
    let base := if hex then 16 else 10
    let s2 := if hex then s1.drop 2 else s1
    let (st, s3) := readDigits base s2 ⟨0, 0, 0, false, false, false⟩
    if st.sawdigits = false then none else
    let dp0 : Int := if st.sawdot then st.dp else st.nd
    let dp1 : Int := if hex then dp0 * 4 else dp0
    let ndMant : Int := if hex then st.nd * 4 else st.nd
    let expChar := if hex then 112 else 101
    let finish (dp : Int) (us : Bool) (rest : List Char) : Option Literal :=
      let n := s.length - rest.length
      if us = true ∧ underscoreOK (s.take n) = false then none
      else some ⟨neg, hex, st.mantissa, if st.mantissa = 0 then 0 else dp - ndMant, n⟩
    match s3 with
    | c :: t =>
        if lower c = expChar then
          match t with
          | [] => none
          | d :: t1 =>
              let esign : Int := if d = '-' then -1 else 1
              let t2 := if d = '+' ∨ d = '-' then t1 else t
              match t2 with
              | [] => none
              | d1 :: _ =>
                  if d1.toNat < 48 ∨ 57 < d1.toNat then none
                  else
                    let (e, us, rest) := readExponent t2 0 st.underscores
                    finish (dp1 + e * esign) us rest
        else if hex then none
        else finish dp1 st.underscores s3
    | [] => if hex then none else finish dp1 st.underscores s3

/-- The `float64` nearest to the exact value `mantissa * 10^exp` (`mantissa * 2^exp` for a
hexadecimal literal) of a literal. -/
def Literal.value (l : Literal) : Float64 :=
  let b : Nat := if l.hex then 2 else 10
  Float64.round l.neg (l.mantissa * b ^ l.exp.toNat) (b ^ (-l.exp).toNat)

/-- Go's `atof64`: the value, the number of characters consumed and the error. A named
value comes first; otherwise the literal read by `readFloat` is rounded to the nearest
`float64`, and an overflow is `±Inf` with `ErrRange`. -/
def atof64 (s : List Char) : Float64 × Nat × Option NumError :=
  match special s with
  | some (v, n) => (v, n, none)
  | none =>
      match readFloat s with
      | none => (Float64.zero, 0, some NumError.errSyn)
      | some l => (l.value, l.n, if l.value.isFinite then none else some NumError.errRange)

/-- Go's `strconv.ParseFloat(s, 64)`: `atof64`, with anything left over after the literal
turned into a syntax error with value 0. -/
def parseFloat (s : String) : Float64 × Option NumError :=
  match atof64 s.toList with
  | (f, n, err) =>
      if n ≠ s.length ∧ err ≠ some NumError.errSyn then (Float64.zero, some NumError.errSyn)
      else (f, err)

/-! ## encoding/json and the response writer -/

/-- A JSON scalar as the encoder is handed it. -/
inductive JsonValue where
  | str (s : String)
  | int (n : Int)
  | num (f : Float64)
  deriving DecidableEq, Repr

/-- One JSON document: the members of an object, in the order of the struct fields. -/
abbrev JsonObject := List (String × JsonValue)

/-- The member of `doc` named `key`, if there is one. -/
def JsonObject.field : JsonObject → String → Option JsonValue
  | [], _ => none
  | (k, v) :: t, key => if k = key then some v else JsonObject.field t key

/-- One call on the `http.ResponseWriter`: `w.Header().Set(key, value)`,
`w.WriteHeader(code)`, or the single `w.Write` by which an encoder sends one document. -/
inductive WriterCall where
  | setHeader (key value : String)
  | writeHeader (code : Int)
  | write (doc : JsonObject)
  deriving DecidableEq, Repr

/-- An `http.ResponseWriter`, as the calls made on it that returned, oldest first. The
behaviour is that of the writer `net/http` hands to a handler. -/
abbrev ResponseWriter := List WriterCall

/-- A status code that ends the header: every code but the informational ones, of which
101 alone is final. -/
def finalStatus (code : Int) : Bool := decide (code < 100 ∨ 199 < code ∨ code = 101)

/-- The `wroteHeader` flag of the writer: set by the first `Write` and by the first
`WriteHeader` with a final status code. -/
def ResponseWriter.wroteHeader : ResponseWriter → Bool
  | [] => false
  | WriterCall.write _ :: _ => true
  | WriterCall.writeHeader code :: t => finalStatus code || ResponseWriter.wroteHeader t
  | WriterCall.setHeader _ _ :: t => ResponseWriter.wroteHeader t

/-- The status line the server sends for a response: the code of the first
`WriteHeader` with a final status code, or 200 when a `Write` comes first or nothing is
written at all. -/
def ResponseWriter.status : ResponseWriter → Int
  | [] => 200
  | WriterCall.writeHeader code :: t => if finalStatus code then code else ResponseWriter.status t
  | WriterCall.write _ :: _ => 200
  | WriterCall.setHeader _ _ :: t => ResponseWriter.status t

/-- The call `w.WriteHeader(code)`: once the header is out the call is superfluous and
returns; before that, `checkWriteHeaderCode` panics on a code outside 100..999. `none`
is the panic. -/
def ResponseWriter.WriteHeader (w : ResponseWriter) (code : Int) : Option ResponseWriter :=
  if w.wroteHeader = false ∧ (code < 100 ∨ 999 < code) then none
  else some (w ++ [WriterCall.writeHeader code])

/-- The documents written to the response, oldest first. -/
def ResponseWriter.body : ResponseWriter → List JsonObject
  | [] => []
  | WriterCall.write doc :: t => doc :: ResponseWriter.body t
  | _ :: t => ResponseWriter.body t

/-- Go's `json.NewEncoder(w).Encode(v)` with the returned error dropped (`_ =`): the
value is marshalled first, and only a marshalled document is written. `doc = none` is
a marshalling error, after which nothing reaches the writer. -/
def encode (w : ResponseWriter) (doc : Option JsonObject) : ResponseWriter :=
  match doc with
  | some d => w ++ [WriterCall.write d]
  | none => w

/-! ## The wire records (`src/main.go`, lines 13-24) -/

/-- The error record `Err`, with its JSON member names `message` and `code`. -/
structure Err where
  Msg : String
  StatCode : Int
  deriving DecidableEq, Repr

/-- The conversion record `Resp`, with its JSON member names `from`, `to`,
`exchange-rate`, `quantity` and `result`. -/
structure Resp where
  From : String
  To : String
  Ratio : Float64
  Qty : Float64
  Result : Float64
  deriving DecidableEq, Repr

/-- Marshalling an `Err` always succeeds. -/
def Err.marshal (e : Err) : Option JsonObject :=
  some [("message", JsonValue.str e.Msg), ("code", JsonValue.int e.StatCode)]

/-- Marshalling a `Resp` fails with `UnsupportedValueError` when one of its three
`float64` fields is NaN or an infinity, which JSON cannot express. -/
def Resp.marshal (r : Resp) : Option JsonObject :=
  if r.Ratio.isFinite ∧ r.Qty.isFinite ∧ r.Result.isFinite then
    some [("from", JsonValue.str r.From), ("to", JsonValue.str r.To),
          ("exchange-rate", JsonValue.num r.Ratio), ("quantity", JsonValue.num r.Qty),
          ("result", JsonValue.num r.Result)]
  else none

/-! ## The functions of `src/main.go` -/

/-- What a call of `errorParser` did: the response writer afterwards, and whether the
call panicked instead of returning. -/
structure Reported where
  w : ResponseWriter
  panicked : Bool
  deriving DecidableEq, Repr

/-- The `errorParser` of lines 26-31. A panic of `WriteHeader` ends the call before the
record is built and encoded. -/
def errorParser (w : ResponseWriter) (errMsg : String) (code : Int) : Reported :=
  let w := w ++ [WriterCall.setHeader "Content-Type" "application/json; charset=utf-8"]
  match w.WriteHeader code with
  | none => ⟨w, true⟩
  | some w =>
      let e : Err := ⟨errMsg, code⟩
      ⟨encode w e.marshal, false⟩

/-- The `responseParser` of lines 33-37. -/
def responseParser (w : ResponseWriter) (fromCurrency toCurrency : String)
    (ratio quantity conversion : Float64) : ResponseWriter :=
  let w := w ++ [WriterCall.setHeader "Content-Type" "application/json; charset=utf-8"]
  let resp : Resp := ⟨fromCurrency, toCurrency, ratio, quantity, conversion⟩
  encode w resp.marshal

/-- The `calcConversion` of lines 39-41. -/
def calcConversion (quantityDecimal ratio : Float64) : Float64 :=
  Float64.mul ratio quantityDecimal

/-- The `uriBuilder` of lines 43-47. -/
def uriBuilder (fromCurrency toCurrency : String) : String :=
  "https://currency-exchange.p.rapidapi.com/exchange?from=" ++ fromCurrency ++ "&to="
    ++ toCurrency ++ "&q=1.0"

/-- The bytes allowed in a header key (`validHeaderFieldByte`): letters, digits and the
token punctuation of RFC 7230, by character code. -/
def validHeaderFieldByte (c : Char) : Bool :=
  decide ((48 ≤ c.toNat ∧ c.toNat ≤ 57) ∨ (65 ≤ c.toNat ∧ c.toNat ≤ 90)
    ∨ (97 ≤ c.toNat ∧ c.toNat ≤ 122)
    ∨ c.toNat ∈ [33, 35, 36, 37, 38, 39, 42, 43, 45, 46, 94, 95, 96, 124, 126])

/-- The canonical case of a header key: a letter is upper case at the start and after a
hyphen (`upper`), lower case elsewhere. -/
def canonicalCase : Bool → List Char → List Char
  | _, [] => []
  | upper, c :: t =>
      let c1 :=
        if upper = true ∧ 97 ≤ c.toNat ∧ c.toNat ≤ 122 then Char.ofNat (c.toNat - 32)
        else if upper = false ∧ 65 ≤ c.toNat ∧ c.toNat ≤ 90 then Char.ofNat (c.toNat + 32)
        else c
      c1 :: canonicalCase (c1 = '-') t

/-- Go's `textproto.CanonicalMIMEHeaderKey`, which `Header.Add` applies to its key: a
key made of valid bytes is put in canonical case, any other key is left as it is. -/
def canonicalMIMEHeaderKey (s : String) : String :=
  if s.toList.all validHeaderFieldByte then String.mk (canonicalCase true s.toList) else s

/-- An outgoing `*http.Request`: method, URL and header lines in the order added. -/
structure Request where
  method : String
  url : String
  header : List (String × String)
  deriving DecidableEq, Repr

/-- An upstream `*http.Response`, reduced to what `json.NewDecoder(res.Body).Decode(&ratio)`
makes of its body: `decoded` is the value of `ratio` after the call (the variable starts
at the zero value, so this is 0 when `Decode` leaves it untouched) and `failed` is
whether `Decode` returned an error. The two are independent: the library may store a
value and report an error all the same, as it does for a number too large for a
`float64` in the releases that store `+Inf` before reporting it. -/
structure Response where
  decoded : Float64
  failed : Bool
  deriving DecidableEq, Repr

/-- Everything outside the handler: the process environment (`os.Getenv`), whether
`net/url` accepts a URL (which decides whether `http.NewRequest` returns a request or
nil and an error), and `http.DefaultClient.Do`, which returns a response or, on a
network error, nil and an error. -/
structure World where
  getenv : String → String
  acceptsURL : String → Bool
  roundTrip : Request → Option Response

/-- What a call of `exchangeRatioRequest` did: the ratio it returned (`none` when it
panicked on a nil pointer instead of returning), the requests it handed to the client
and the lines it printed. -/
structure RatioCall where
  ratio : Option Float64
  sent : List Request
  printed : List String
  deriving DecidableEq, Repr

/-- The `exchangeRatioRequest` of lines 49-72. Both errors are dropped (`req, _ :=`,
`res, _ :=`), so a nil request panics at `req.Header.Add` and a nil response panics at
`res.Body`; `ratio` is returned as `Decode` left it, after the message when `Decode`
returned an error. -/
def exchangeRatioRequest (env : World) (uri : String) : RatioCall :=
  if env.acceptsURL uri = false then ⟨none, [], []⟩ else
  let key := env.getenv "RAPID_CURRENCY_KEY"
  let host := env.getenv "RAPID_CURRENCY_HOST"
  let req : Request :=
    ⟨"GET", uri, [(canonicalMIMEHeaderKey "X-RapidAPI-Key", key),
                  (canonicalMIMEHeaderKey "X-RapidAPI-Host", host)]⟩
  match env.roundTrip req with
  | none => ⟨none, [req], []⟩
  | some res =>
      let ratio := res.decoded
      ⟨some ratio, [req],
        if res.failed then ["Third party service is not available."] else []⟩

/-- The decoded query string (`url.Values`), as key/value pairs in order of appearance. -/
abbrev Values := List (String × String)

/-- Go's `Values.Get`: the first value of `key`, or the empty string when there is none. -/
def Values.Get : Values → String → String
  | [], _ => ""
  | (k, v) :: t, key => if k = key then v else Values.Get t key

/-- The constant `http.StatusBadRequest`. -/
def StatusBadRequest : Int := 400

/-- What a run of the handler did: the response writer afterwards, the upstream
requests sent, the lines printed, and whether the handler panicked instead of
returning. -/
structure Outcome where
  w : ResponseWriter
  sent : List Request
  printed : List String
  panicked : Bool
  deriving DecidableEq, Repr

/-- The `convert` of lines 74-101. The error branch of the quantity check has no
`return`, so the rest of the body runs after it as well, unless `errorParser` panicked. -/
def convert (env : World) (w : ResponseWriter) (queryString : Values) : Outcome :=
  let fromCurrency := queryString.Get "from"
  let toCurrency := queryString.Get "to"
  let quantity := queryString.Get "q"
  let (quantityFloat, err) := parseFloat quantity
  let reported : Reported :=
    if err ≠ none then
      errorParser w "Something is wrong with the quantity parameter provided in the queryString."
        StatusBadRequest
    else ⟨w, false⟩
  if reported.panicked then ⟨reported.w, [], [], true⟩ else
  let w := reported.w
  let uri := uriBuilder fromCurrency toCurrency
  let call := exchangeRatioRequest env uri
  match call.ratio with
  | none => ⟨w, call.sent, call.printed, true⟩
  | some ratio =>
      let conversion := calcConversion quantityFloat ratio
      ⟨responseParser w fromCurrency toCurrency ratio quantityFloat conversion,
        call.sent, call.printed, false⟩

/-! ## Worlds used in the examples -/

/-- The `float64` nearest to 0.9. -/
def ninetyPercent : Float64 := Float64.fin false 8106479329266893 (-53)

/-- A deterministic upstream stub: every URL is accepted and every request is answered
with the JSON number 0.9. -/
def stubWorld : World :=
  ⟨fun _ => "", fun _ => true, fun _ => some ⟨ninetyPercent, false⟩⟩

/-- The same stub with credentials in the process environment. -/
def keyedWorld : World :=
  ⟨fun name => if name = "RAPID_CURRENCY_KEY" then "k" else "h", fun _ => true,
    fun _ => some ⟨ninetyPercent, false⟩⟩

/-- An upstream that answers every request with a body that is not a JSON number:
`Decode` reports an error and leaves the variable at 0. -/
def garbledWorld : World := ⟨fun _ => "", fun _ => true, fun _ => some ⟨Float64.zero, true⟩⟩

/-- An upstream that answers every request with the body `1e999`, under a release of
`encoding/json` that stores `+Inf` and then reports the number as out of range. -/
def overflowWorld : World :=
  ⟨fun _ => "", fun _ => true, fun _ => some ⟨Float64.inf false, true⟩⟩

/-- An unreachable upstream: every `Do` is a network error. -/
def offlineWorld : World := ⟨fun _ => "", fun _ => true, fun _ => none⟩

/-- The query string `from=USD&to=EUR&q=<q>`. -/
def usdToEur (q : String) : Values := [("from", "USD"), ("to", "EUR"), ("q", q)]

/-! ## Auxiliary facts -/

namespace Float64

/-- Rounding the exact value 0 gives the zero of the requested sign. -/
theorem round_zero (neg : Bool) (den : Nat) : round neg 0 den = fin neg 0 0 := by
  simp [round]

/-- A packed value is finite or the infinity of its sign. -/
theorem pack_shape (neg : Bool) (m : Nat) (e : Int) :
    pack neg m e = inf neg ∨ ∃ m1 e1, pack neg m e = fin neg m1 e1 := by
  unfold pack
  split_ifs <;> simp

/-- Rounding never produces a NaN: the result is finite or the infinity of its sign. -/
theorem round_shape (neg : Bool) (num den : Nat) :
    round neg num den = inf neg ∨ ∃ m e, round neg num den = fin neg m e := by
  unfold round
  split_ifs
  · exact Or.inr ⟨0, 0, rfl⟩
  · unfold roundAt
    simp only
    split_ifs <;> exact pack_shape _ _ _

/-- A finite product has finite factors. -/
theorem mul_isFinite (a b : Float64) (h : (mul a b).isFinite = true) :
    a.isFinite = true ∧ b.isFinite = true := by
  cases a <;> cases b <;> simp [mul, isFinite] at h ⊢
  all_goals (split_ifs at h)

/-- A finite value times the zero value is finite. -/
theorem mul_zero_right (r : Float64) (h : r.isFinite = true) :
    (mul r zero).isFinite = true := by
  cases r <;> simp [isFinite] at h
  simp [mul, zero, round_zero, isFinite]

/-- The zero value times a finite value is finite. -/
theorem mul_zero_left (q : Float64) (h : q.isFinite = true) :
    (mul zero q).isFinite = true := by
  cases q <;> simp [isFinite] at h
  simp [mul, zero, round_zero, isFinite]

end Float64

/-- The three outcomes of `atof64`: no error, a syntax error with value 0, or a range
error with an infinity. -/
theorem atof64_cases (s : List Char) :
    (atof64 s).2.2 = none ∨ ((atof64 s).2.2 = some NumError.errSyn ∧ (atof64 s).1 = Float64.zero)
      ∨ ((atof64 s).2.2 = some NumError.errRange ∧ ∃ neg, (atof64 s).1 = Float64.inf neg) := by
  unfold atof64
  split
  · exact Or.inl rfl
  · split
    · exact Or.inr (Or.inl ⟨rfl, rfl⟩)
    · rename_i l _
      by_cases hfin : l.value.isFinite = true
      · left; simp [hfin]
      · right; right
        refine ⟨by simp [hfin], ?_⟩
        rcases Float64.round_shape l.neg (l.mantissa * (if l.hex = true then 2 else 10) ^ l.exp.toNat)
          ((if l.hex = true then 2 else 10) ^ (-l.exp).toNat) with hi | ⟨m, e, hm⟩
        · exact ⟨l.neg, hi⟩
        · exact absurd (show l.value.isFinite = true by
            show (Float64.round _ _ _).isFinite = true
            rw [hm]; rfl) hfin

/-- The three outcomes of `parseFloat`: no error, a syntax error with value 0, or a range
error with an infinity. -/
theorem parseFloat_cases (s : String) :
    (parseFloat s).2 = none ∨ ((parseFloat s).2 = some NumError.errSyn ∧ (parseFloat s).1 = Float64.zero)
      ∨ ((parseFloat s).2 = some NumError.errRange ∧ ∃ neg, (parseFloat s).1 = Float64.inf neg) := by
  have h := atof64_cases s.toList
  unfold parseFloat
  rcases hs : atof64 s.toList with ⟨f, n, err⟩
  rw [hs] at h
  simp only at h ⊢
  split_ifs
  · exact Or.inr (Or.inl ⟨rfl, rfl⟩)
  · exact h

/-- The documents of a log are those of its parts, in order. -/
theorem body_append (a b : ResponseWriter) :
    ResponseWriter.body (a ++ b) = ResponseWriter.body a ++ ResponseWriter.body b := by
  induction a with
  | nil => rfl
  | cons c t ih => cases c <;> simp [ResponseWriter.body, ih]

/-- The canonical form of the two header keys of the upstream request. -/
theorem canonical_keys :
    canonicalMIMEHeaderKey "X-RapidAPI-Key" = "X-Rapidapi-Key" ∧
    canonicalMIMEHeaderKey "X-RapidAPI-Host" = "X-Rapidapi-Host" := by
  decide

/-- The requests `exchangeRatioRequest` hands to the client: none when the URL is
refused, otherwise one GET of the URI with the two credential headers. -/
theorem sent_eq (env : World) (uri : String) :
    (exchangeRatioRequest env uri).sent =
      if env.acceptsURL uri = false then []
      else [⟨"GET", uri, [("X-Rapidapi-Key", env.getenv "RAPID_CURRENCY_KEY"),
              ("X-Rapidapi-Host", env.getenv "RAPID_CURRENCY_HOST")]⟩] := by
  unfold exchangeRatioRequest
  rw [canonical_keys.1, canonical_keys.2]
  split_ifs
  · rfl
  · simp only
    split <;> rfl

/-- When `exchangeRatioRequest` returns, it has sent exactly one request: a GET of the
URI with the two credential headers. -/
theorem ratio_some_sent (env : World) (uri : String) (r : Float64)
    (h : (exchangeRatioRequest env uri).ratio = some r) :
    (exchangeRatioRequest env uri).sent =
      [⟨"GET", uri, [("X-Rapidapi-Key", env.getenv "RAPID_CURRENCY_KEY"),
                     ("X-Rapidapi-Host", env.getenv "RAPID_CURRENCY_HOST")]⟩] := by
  rw [sent_eq]
  split_ifs with ha
  · unfold exchangeRatioRequest at h
    simp [ha] at h
  · rfl

/-- Setting a header does not put the status line out. -/
theorem wroteHeader_setHeader (w : ResponseWriter) (key value : String) :
    ResponseWriter.wroteHeader (w ++ [WriterCall.setHeader key value])
      = ResponseWriter.wroteHeader w := by
  induction w with
  | nil => rfl
  | cons c t ih => cases c <;> simp [ResponseWriter.wroteHeader, ih]

/-- The calls `errorParser` makes on the writer when `WriteHeader` returns, which it
does for every three-digit status code. -/
theorem errorParser_eq (w : ResponseWriter) (errMsg : String) (code : Int)
    (hlo : 100 ≤ code) (hhi : code ≤ 999) :
    errorParser w errMsg code =
      ⟨w ++ [WriterCall.setHeader "Content-Type" "application/json; charset=utf-8",
            WriterCall.writeHeader code,
            WriterCall.write [("message", JsonValue.str errMsg), ("code", JsonValue.int code)]],
        false⟩ := by
  have hcode : ¬ (code < 100 ∨ 999 < code) := by omega
  simp [errorParser, ResponseWriter.WriteHeader, encode, Err.marshal, hcode]

/-- On a writer whose status line is not out, `errorParser` panics on a status code that
is not three digits, after the content type has been set. -/
theorem errorParser_panic (w : ResponseWriter) (errMsg : String) (code : Int)
    (hw : w.wroteHeader = false) (hcode : code < 100 ∨ 999 < code) :
    errorParser w errMsg code =
      ⟨w ++ [WriterCall.setHeader "Content-Type" "application/json; charset=utf-8"], true⟩ := by
  simp [errorParser, ResponseWriter.WriteHeader, wroteHeader_setHeader, hw, hcode]

/-- The calls `responseParser` makes on the writer: the header, and the document when it
can be marshalled. -/
theorem responseParser_eq (w : ResponseWriter) (fromCurrency toCurrency : String)
    (ratio quantity conversion : Float64) :
    responseParser w fromCurrency toCurrency ratio quantity conversion =
      w ++ WriterCall.setHeader "Content-Type" "application/json; charset=utf-8" ::
        (if ratio.isFinite = true ∧ quantity.isFinite = true ∧ conversion.isFinite = true then
          [WriterCall.write
            [("from", JsonValue.str fromCurrency), ("to", JsonValue.str toCurrency),
             ("exchange-rate", JsonValue.num ratio), ("quantity", JsonValue.num quantity),
             ("result", JsonValue.num conversion)]]
        else []) := by
  unfold responseParser Resp.marshal
  simp only
  split_ifs <;> simp [encode]

/-- The quantity check of `convert` never panics: status 400 is three digits. -/
theorem check_eq (w : ResponseWriter) (q : String) :
    (if (parseFloat q).2 ≠ none then
        errorParser w "Something is wrong with the quantity parameter provided in the queryString."
          StatusBadRequest
      else (⟨w, false⟩ : Reported)) =
      ⟨if (parseFloat q).2 ≠ none then
          w ++ [WriterCall.setHeader "Content-Type" "application/json; charset=utf-8",
                WriterCall.writeHeader 400,
                WriterCall.write
                  [("message", JsonValue.str
                      "Something is wrong with the quantity parameter provided in the queryString."),
                   ("code", JsonValue.int 400)]]
        else w, false⟩ := by
  have h := errorParser_eq w
    "Something is wrong with the quantity parameter provided in the queryString."
    StatusBadRequest (by decide) (by decide)
  split_ifs
  · rw [h]; rfl
  · rfl

/-- The handler when the upstream client returns `r`: the response is formatted from the
writer left by the quantity check. -/
theorem convert_of_ratio (env : World) (w : ResponseWriter) (queryString : Values) (r : Float64)
    (hr : (exchangeRatioRequest env
      (uriBuilder (queryString.Get "from") (queryString.Get "to"))).ratio = some r) :
    convert env w queryString =
      ⟨responseParser
          (if (parseFloat (queryString.Get "q")).2 ≠ none then
            w ++ [WriterCall.setHeader "Content-Type" "application/json; charset=utf-8",
                  WriterCall.writeHeader 400,
                  WriterCall.write
                    [("message", JsonValue.str
                        "Something is wrong with the quantity parameter provided in the queryString."),
                     ("code", JsonValue.int 400)]]
          else w)
          (queryString.Get "from") (queryString.Get "to") r (parseFloat (queryString.Get "q")).1
          (calcConversion (parseFloat (queryString.Get "q")).1 r),
        (exchangeRatioRequest env
          (uriBuilder (queryString.Get "from") (queryString.Get "to"))).sent,
        (exchangeRatioRequest env
          (uriBuilder (queryString.Get "from") (queryString.Get "to"))).printed, false⟩ := by
  unfold convert
  simp only [check_eq, hr, Bool.false_eq_true, if_false]

/-- The handler when the upstream client panics: the writer is as the quantity check
left it. -/
theorem convert_of_panic (env : World) (w : ResponseWriter) (queryString : Values)
    (hr : (exchangeRatioRequest env
      (uriBuilder (queryString.Get "from") (queryString.Get "to"))).ratio = none) :
    convert env w queryString =
      ⟨if (parseFloat (queryString.Get "q")).2 ≠ none then
            w ++ [WriterCall.setHeader "Content-Type" "application/json; charset=utf-8",
                  WriterCall.writeHeader 400,
                  WriterCall.write
                    [("message", JsonValue.str
                        "Something is wrong with the quantity parameter provided in the queryString."),
                     ("code", JsonValue.int 400)]]
          else w,
        (exchangeRatioRequest env
          (uriBuilder (queryString.Get "from") (queryString.Get "to"))).sent,
        (exchangeRatioRequest env
          (uriBuilder (queryString.Get "from") (queryString.Get "to"))).printed, true⟩ := by
  unfold convert
  simp only [check_eq, hr, Bool.false_eq_true, if_false]

/-! ## The claims -/

/-- C1: whenever the upstream client returns a ratio `r`, the conversion handed to the
response is `calcConversion q r`, which is the single `float64` product `r * q` of the
ratio and the parsed quantity; every ConversionResult the handler writes carries that
product in `result` next to `r` in `exchange-rate` and `q` in `quantity`, and one is
written whenever the product is a number JSON can express. -/
theorem convert_result_is_product (env : World) (queryString : Values) (r : Float64)
    (hr : (exchangeRatioRequest env
      (uriBuilder (queryString.Get "from") (queryString.Get "to"))).ratio = some r) :
    calcConversion (parseFloat (queryString.Get "q")).1 r
        = Float64.mul r (parseFloat (queryString.Get "q")).1 ∧
    (∀ doc ∈ (convert env [] queryString).w.body, ∀ v, JsonObject.field doc "result" = some v →
        v = JsonValue.num (Float64.mul r (parseFloat (queryString.Get "q")).1) ∧
        JsonObject.field doc "exchange-rate" = some (JsonValue.num r) ∧
        JsonObject.field doc "quantity" = some (JsonValue.num (parseFloat (queryString.Get "q")).1)) ∧
    ((Float64.mul r (parseFloat (queryString.Get "q")).1).isFinite = true →
        ∃ doc ∈ (convert env [] queryString).w.body,
          JsonObject.field doc "result"
            = some (JsonValue.num (Float64.mul r (parseFloat (queryString.Get "q")).1))) := by
  refine ⟨rfl, ?_, ?_⟩
  · rw [convert_of_ratio env [] queryString r hr]
    simp only [responseParser_eq, calcConversion, body_append]
    intro doc hdoc v hv
    by_cases herr : (parseFloat (queryString.Get "q")).2 = none <;>
      by_cases hfin : r.isFinite = true ∧ (parseFloat (queryString.Get "q")).1.isFinite = true ∧
        (Float64.mul r (parseFloat (queryString.Get "q")).1).isFinite = true <;>
      simp only [herr, hfin, ResponseWriter.body, if_true, if_false, ne_eq, not_true_eq_false,
        not_false_eq_true, List.nil_append, List.append_nil, List.cons_append,
        List.mem_cons, List.mem_singleton, List.not_mem_nil, or_false, false_or] at hdoc
    · subst hdoc
      simp [JsonObject.field] at hv ⊢
      exact hv.symm
    · rcases hdoc with hdoc | hdoc <;> subst hdoc <;> simp [JsonObject.field] at hv ⊢
      exact hv.symm
    · subst hdoc
      simp [JsonObject.field] at hv
  · intro hfin
    have h2 := Float64.mul_isFinite _ _ hfin
    rw [convert_of_ratio env [] queryString r hr]
    simp only [responseParser_eq, calcConversion, body_append, h2.1, h2.2, hfin, and_self,
      if_true]
    refine ⟨[("from", JsonValue.str (queryString.Get "from")),
        ("to", JsonValue.str (queryString.Get "to")), ("exchange-rate", JsonValue.num r),
        ("quantity", JsonValue.num (parseFloat (queryString.Get "q")).1),
        ("result", JsonValue.num (Float64.mul r (parseFloat (queryString.Get "q")).1))], ?_, ?_⟩
    · simp [ResponseWriter.body]
    · simp [JsonObject.field]

/-- C1, at the instance of the spec: with `q = 2.5` and an upstream ratio of 0.9 the
response carries a ConversionResult whose `result` is the product, and that product is
the `float64` written 2.25. -/
theorem convert_result_is_product_witness :
    (exchangeRatioRequest stubWorld
      (uriBuilder ((usdToEur "2.5").Get "from") ((usdToEur "2.5").Get "to"))).ratio
        = some ninetyPercent ∧
    (parseFloat "0.9").1 = ninetyPercent ∧
    Float64.mul ninetyPercent (parseFloat ((usdToEur "2.5").Get "q")).1 = (parseFloat "2.25").1 ∧
    ∃ doc ∈ (convert stubWorld [] (usdToEur "2.5")).w.body,
      JsonObject.field doc "result"
        = some (JsonValue.num (Float64.mul ninetyPercent (parseFloat ((usdToEur "2.5").Get "q")).1)) :=
  ⟨by decide!, by decide!, by decide!,
    (convert_result_is_product stubWorld (usdToEur "2.5") ninetyPercent (by decide!)).2.2
      (by decide!)⟩

/-- C2: when `q` does not parse, the first thing the handler does to the response is
set the JSON content type, write status 400 and write the error payload with the fixed
message and code 400; on a fresh response the status is 400 and the error payload is the
first document of the body, whatever happens afterwards. -/
theorem convert_bad_quantity (env : World) (w : ResponseWriter) (queryString : Values)
    (hq : (parseFloat (queryString.Get "q")).2 ≠ none) :
    (∃ rest, (convert env w queryString).w =
      w ++ [WriterCall.setHeader "Content-Type" "application/json; charset=utf-8",
            WriterCall.writeHeader 400,
            WriterCall.write
              [("message", JsonValue.str
                  "Something is wrong with the quantity parameter provided in the queryString."),
               ("code", JsonValue.int 400)]] ++ rest) ∧
    (convert env [] queryString).w.status = 400 ∧
    (convert env [] queryString).w.body.head? =
      some [("message", JsonValue.str
                "Something is wrong with the quantity parameter provided in the queryString."),
            ("code", JsonValue.int 400)] := by
  cases hr : (exchangeRatioRequest env
      (uriBuilder (queryString.Get "from") (queryString.Get "to"))).ratio with
  | none =>
      simp only [convert_of_panic env _ queryString hr, hq, ne_eq, not_false_eq_true, if_true]
      exact ⟨⟨[], by simp⟩, rfl, rfl⟩
  | some r =>
      simp only [convert_of_ratio env _ queryString r hr, hq, ne_eq, not_false_eq_true, if_true,
        responseParser_eq, List.append_assoc]
      exact ⟨⟨_, rfl⟩, rfl, rfl⟩

/-- C2, at `q = "abc"`, and at a request without `q`, whose value is the empty string:
neither parses, and the response has status 400. -/
theorem convert_bad_quantity_witness :
    (parseFloat ((usdToEur "abc").Get "q")).2 ≠ none ∧
    Values.Get [("from", "USD"), ("to", "EUR")] "q" = "" ∧
    (parseFloat (Values.Get [("from", "USD"), ("to", "EUR")] "q")).2 ≠ none ∧
    (convert stubWorld [] (usdToEur "abc")).w.status = 400 ∧
    (convert stubWorld [] [("from", "USD"), ("to", "EUR")]).w.status = 400 :=
  ⟨by decide!, by decide!, by decide!,
    (convert_bad_quantity stubWorld [] (usdToEur "abc") (by decide!)).2.1,
    (convert_bad_quantity stubWorld [] [("from", "USD"), ("to", "EUR")] (by decide!)).2.1⟩

/-- C3 fails as stated: `q = "NaN"` parses without an error, the upstream returns 0.9,
and the handler returns without having written any document, because the encoder
rejects a record that holds a NaN. -/
theorem convert_parsed_nan_writes_nothing :
    (parseFloat ((usdToEur "NaN").Get "q")).2 = none ∧
    (exchangeRatioRequest stubWorld (uriBuilder "USD" "EUR")).ratio = some ninetyPercent ∧
    (convert stubWorld [] (usdToEur "NaN")).w.body = [] ∧
    (convert stubWorld [] (usdToEur "NaN")).panicked = false := by
  decide!

/-- C3, amended: when `q` parses and the upstream client returns a ratio `r`, the handler
writes no status and no error payload, sets the content type and returns, and on a fresh
response the status is the implicit 200. When the product `r * q` is finite it writes
exactly one ConversionResult holding the request's `from` and `to`, the ratio, the parsed
quantity and their product. When the product is NaN or an infinity, which it is
whenever the quantity is, it writes no document at all. -/
theorem convert_success (env : World) (w : ResponseWriter) (queryString : Values) (r : Float64)
    (hq : (parseFloat (queryString.Get "q")).2 = none)
    (hr : (exchangeRatioRequest env
      (uriBuilder (queryString.Get "from") (queryString.Get "to"))).ratio = some r) :
    ((calcConversion (parseFloat (queryString.Get "q")).1 r).isFinite = true →
      (convert env w queryString).w =
        w ++ [WriterCall.setHeader "Content-Type" "application/json; charset=utf-8",
              WriterCall.write
                [("from", JsonValue.str (queryString.Get "from")),
                 ("to", JsonValue.str (queryString.Get "to")),
                 ("exchange-rate", JsonValue.num r),
                 ("quantity", JsonValue.num (parseFloat (queryString.Get "q")).1),
                 ("result", JsonValue.num (Float64.mul r (parseFloat (queryString.Get "q")).1))]] ∧
      (convert env [] queryString).w.body.length = 1) ∧
    ((calcConversion (parseFloat (queryString.Get "q")).1 r).isFinite = false →
      (convert env w queryString).w =
        w ++ [WriterCall.setHeader "Content-Type" "application/json; charset=utf-8"] ∧
      (convert env [] queryString).w.body = []) ∧
    ((parseFloat (queryString.Get "q")).1.isFinite = false →
      (calcConversion (parseFloat (queryString.Get "q")).1 r).isFinite = false) ∧
    (convert env w queryString).panicked = false ∧
    (convert env [] queryString).w.status = 200 := by
  have hnf : (parseFloat (queryString.Get "q")).1.isFinite = false →
      (calcConversion (parseFloat (queryString.Get "q")).1 r).isFinite = false := by
    intro hqf
    by_contra hc
    have hfin : (Float64.mul r (parseFloat (queryString.Get "q")).1).isFinite = true := by
      simpa [calcConversion] using hc
    rw [(Float64.mul_isFinite _ _ hfin).2] at hqf
    cases hqf
  refine ⟨?_, ?_, hnf, ?_, ?_⟩
  · intro hfin
    have h2 := Float64.mul_isFinite _ _ hfin
    have h3 : (Float64.mul r (parseFloat (queryString.Get "q")).1).isFinite = true := hfin
    simp only [convert_of_ratio env _ queryString r hr, hq, ne_eq, not_true_eq_false, if_false,
      responseParser_eq, calcConversion, h2.1, h2.2, h3, and_self, if_true]
    exact ⟨trivial, rfl⟩
  · intro hinf
    have h3 : (Float64.mul r (parseFloat (queryString.Get "q")).1).isFinite = false := hinf
    simp only [convert_of_ratio env _ queryString r hr, hq, ne_eq, not_true_eq_false, if_false,
      responseParser_eq, calcConversion, h3, Bool.false_eq_true, and_false, if_false]
    exact ⟨trivial, rfl⟩
  · rw [convert_of_ratio env _ queryString r hr]
  · simp only [convert_of_ratio env _ queryString r hr, hq, ne_eq, not_true_eq_false, if_false,
      responseParser_eq]
    split_ifs <;> rfl

/-- C3, amended, at the instance of the spec, `q = "2.5"`, `from = "USD"`, `to = "EUR"` and
an upstream ratio of 0.9, which give the record with exchange rate 0.9, quantity 2.5 and
result 2.25; and at `q = "-Inf"`, where the product is not finite and nothing is written. -/
theorem convert_success_witness :
    (parseFloat ((usdToEur "2.5").Get "q")).2 = none ∧
    (usdToEur "2.5").Get "from" = "USD" ∧ (usdToEur "2.5").Get "to" = "EUR" ∧
    (parseFloat ((usdToEur "2.5").Get "q")).1 = Float64.fin false 5629499534213120 (-51) ∧
    Float64.mul ninetyPercent (parseFloat ((usdToEur "2.5").Get "q")).1
      = Float64.fin false 5066549580791808 (-51) ∧
    (convert stubWorld [] (usdToEur "2.5")).w =
      [] ++ [WriterCall.setHeader "Content-Type" "application/json; charset=utf-8",
            WriterCall.write
              [("from", JsonValue.str ((usdToEur "2.5").Get "from")),
               ("to", JsonValue.str ((usdToEur "2.5").Get "to")),
               ("exchange-rate", JsonValue.num ninetyPercent),
               ("quantity", JsonValue.num (parseFloat ((usdToEur "2.5").Get "q")).1),
               ("result", JsonValue.num
                  (Float64.mul ninetyPercent (parseFloat ((usdToEur "2.5").Get "q")).1))]] ∧
    (parseFloat ((usdToEur "-Inf").Get "q")).2 = none ∧
    (convert stubWorld [] (usdToEur "-Inf")).w.body = [] :=
  ⟨by decide!, by decide!, by decide!, by decide!, by decide!,
    ((convert_success stubWorld [] (usdToEur "2.5") ninetyPercent (by decide!) (by decide!)).1
      (by decide!)).1,
    by decide!,
    ((convert_success stubWorld [] (usdToEur "-Inf") ninetyPercent (by decide!) (by decide!)).2.1
      (by decide!)).2⟩

/-- C4, the code at the failing input: with an unreachable upstream the handler sends
the request and then panics on the nil response; nothing has been written to the
response, neither a status nor a ConversionResult. -/
theorem convert_network_error_panics :
    convert offlineWorld [] (usdToEur "2.5") =
      ⟨[], [⟨"GET", "https://currency-exchange.p.rapidapi.com/exchange?from=USD&to=EUR&q=1.0",
              [("X-Rapidapi-Key", ""), ("X-Rapidapi-Host", "")]⟩], [], true⟩ := by
  decide!

/-- C5 fails as stated, in two ways. With the upstream body `1e999`, under a release of
`encoding/json` that stores `+Inf` before it reports the number as out of range,
`exchangeRatioRequest` prints its message and returns `+Inf`, not 0, and for `q = "2.5"`
no document is written. And with a body that leaves the ratio at 0, `q = "Inf"` parses
without an error, the product `0 * Inf` is NaN, and again no document is written. -/
theorem decode_error_without_record :
    (exchangeRatioRequest overflowWorld (uriBuilder "USD" "EUR")).printed
      = ["Third party service is not available."] ∧
    (exchangeRatioRequest overflowWorld (uriBuilder "USD" "EUR")).ratio
      = some (Float64.inf false) ∧
    (parseFloat ((usdToEur "2.5").Get "q")).2 = none ∧
    (convert overflowWorld [] (usdToEur "2.5")).w.body = [] ∧
    (parseFloat ((usdToEur "Inf").Get "q")).2 = none ∧
    (exchangeRatioRequest garbledWorld (uriBuilder "USD" "EUR")).ratio = some Float64.zero ∧
    (convert garbledWorld [] (usdToEur "Inf")).w.body = [] ∧
    (convert garbledWorld [] (usdToEur "Inf")).panicked = false := by
  decide!

/-- C5, amended: when the upstream answers the request and `Decode` reports an error on
its body, `exchangeRatioRequest` prints its message and returns, without panicking and
without an error for its caller, the ratio as `Decode` left it. When that is 0, the
variable having been left untouched, and `q` parses to a finite quantity, the handler
writes no status and no error payload, and writes one ConversionResult with
`exchange-rate` 0; on a fresh response the status is the implicit 200. -/
theorem decode_error_keeps_ratio (env : World) (uri : String) (res : Response)
    (hurl : env.acceptsURL uri = true)
    (hres : env.roundTrip ⟨"GET", uri, [("X-Rapidapi-Key", env.getenv "RAPID_CURRENCY_KEY"),
        ("X-Rapidapi-Host", env.getenv "RAPID_CURRENCY_HOST")]⟩ = some res)
    (hfail : res.failed = true) :
    exchangeRatioRequest env uri =
      ⟨some res.decoded,
       [⟨"GET", uri, [("X-Rapidapi-Key", env.getenv "RAPID_CURRENCY_KEY"),
          ("X-Rapidapi-Host", env.getenv "RAPID_CURRENCY_HOST")]⟩],
       ["Third party service is not available."]⟩ ∧
    ∀ (w : ResponseWriter) (queryString : Values),
      uriBuilder (queryString.Get "from") (queryString.Get "to") = uri →
      res.decoded = Float64.zero →
      (parseFloat (queryString.Get "q")).2 = none →
      (parseFloat (queryString.Get "q")).1.isFinite = true →
      (convert env w queryString).w =
        w ++ [WriterCall.setHeader "Content-Type" "application/json; charset=utf-8",
              WriterCall.write
                [("from", JsonValue.str (queryString.Get "from")),
                 ("to", JsonValue.str (queryString.Get "to")),
                 ("exchange-rate", JsonValue.num Float64.zero),
                 ("quantity", JsonValue.num (parseFloat (queryString.Get "q")).1),
                 ("result", JsonValue.num
                    (Float64.mul Float64.zero (parseFloat (queryString.Get "q")).1))]] ∧
      (convert env w queryString).panicked = false ∧
      (convert env [] queryString).w.status = 200 := by
  have hcall : exchangeRatioRequest env uri =
      ⟨some res.decoded,
       [⟨"GET", uri, [("X-Rapidapi-Key", env.getenv "RAPID_CURRENCY_KEY"),
          ("X-Rapidapi-Host", env.getenv "RAPID_CURRENCY_HOST")]⟩],
       ["Third party service is not available."]⟩ := by
    unfold exchangeRatioRequest
    rw [canonical_keys.1, canonical_keys.2]
    simp only [hurl, hres, hfail, Bool.true_eq_false, if_false, if_true]
  refine ⟨hcall, ?_⟩
  intro w queryString huri hzero hq hfin
  have hr : (exchangeRatioRequest env
      (uriBuilder (queryString.Get "from") (queryString.Get "to"))).ratio = some Float64.zero := by
    rw [huri, hcall, hzero]
  have h3 := Float64.mul_zero_left _ hfin
  have h0 : Float64.zero.isFinite = true := rfl
  simp only [convert_of_ratio env _ queryString _ hr, hq, ne_eq, not_true_eq_false, if_false,
    responseParser_eq, calcConversion, hfin, h3, h0, and_self, if_true]
  exact ⟨trivial, trivial, rfl⟩

/-- C5, amended, at an instance: the upstream body is not a number, the ratio stays 0,
and `q = "2.5"`. -/
theorem decode_error_keeps_ratio_witness :
    (exchangeRatioRequest garbledWorld (uriBuilder "USD" "EUR")).ratio = some Float64.zero ∧
    (exchangeRatioRequest garbledWorld (uriBuilder "USD" "EUR")).printed
      = ["Third party service is not available."] ∧
    (convert garbledWorld [] (usdToEur "2.5")).w.status = 200 ∧
    (convert garbledWorld [] (usdToEur "2.5")).w.body =
      [[("from", JsonValue.str "USD"), ("to", JsonValue.str "EUR"),
        ("exchange-rate", JsonValue.num Float64.zero),
        ("quantity", JsonValue.num (Float64.fin false 5629499534213120 (-51))),
        ("result", JsonValue.num Float64.zero)]] :=
  ⟨congrArg RatioCall.ratio
      (decode_error_keeps_ratio garbledWorld (uriBuilder "USD" "EUR") ⟨Float64.zero, true⟩
        rfl rfl rfl).1,
    congrArg RatioCall.printed
      (decode_error_keeps_ratio garbledWorld (uriBuilder "USD" "EUR") ⟨Float64.zero, true⟩
        rfl rfl rfl).1,
    ((decode_error_keeps_ratio garbledWorld (uriBuilder "USD" "EUR") ⟨Float64.zero, true⟩
        rfl rfl rfl).2 [] (usdToEur "2.5") (by decide!) rfl (by decide!) (by decide!)).2.2,
    by decide!⟩

/-- C6: `uriBuilder` is the fixed endpoint followed by `?from=`, the first argument,
`&to=`, the second argument and the fixed `&q=1.0`. `Values.Get` returns the first value
given for a key, and the empty string for a key that is absent. Every request the
handler sends upstream is a GET whose URL is the endpoint with the `from` and `to`
values of the query string as they are and the fixed `q=1.0`, whatever the request's `q`
is; and when that URL is accepted exactly one request is sent. -/
theorem uri_from_query_values :
    (∀ a b : String, uriBuilder a b =
      "https://currency-exchange.p.rapidapi.com/exchange" ++ "?from=" ++ a ++ "&to=" ++ b
        ++ "&q=1.0") ∧
    (∀ (before after : Values) (key value : String),
      (∀ p ∈ before, p.1 ≠ key) → Values.Get (before ++ (key, value) :: after) key = value) ∧
    (∀ (queryString : Values) (key : String),
      (∀ p ∈ queryString, p.1 ≠ key) → queryString.Get key = "") ∧
    (∀ (env : World) (w : ResponseWriter) (queryString : Values),
      ∀ req ∈ (convert env w queryString).sent,
        req.method = "GET" ∧
        req.url = "https://currency-exchange.p.rapidapi.com/exchange" ++ "?from="
          ++ queryString.Get "from" ++ "&to=" ++ queryString.Get "to" ++ "&q=1.0") ∧
    (∀ (env : World) (w : ResponseWriter) (queryString : Values),
      env.acceptsURL (uriBuilder (queryString.Get "from") (queryString.Get "to")) = true →
      (convert env w queryString).sent.map Request.url =
        ["https://currency-exchange.p.rapidapi.com/exchange" ++ "?from="
          ++ queryString.Get "from" ++ "&to=" ++ queryString.Get "to" ++ "&q=1.0"]) := by
  have hconv : ∀ (env : World) (w : ResponseWriter) (queryString : Values),
      (convert env w queryString).sent =
        (exchangeRatioRequest env
          (uriBuilder (queryString.Get "from") (queryString.Get "to"))).sent := by
    intro env w queryString
    cases hr : (exchangeRatioRequest env
        (uriBuilder (queryString.Get "from") (queryString.Get "to"))).ratio with
    | none => rw [convert_of_panic env w queryString hr]
    | some r => rw [convert_of_ratio env w queryString r hr]
  have huri : ∀ a b : String, uriBuilder a b =
      "https://currency-exchange.p.rapidapi.com/exchange" ++ "?from=" ++ a ++ "&to=" ++ b
        ++ "&q=1.0" := by
    intro a b
    unfold uriBuilder
    have : "https://currency-exchange.p.rapidapi.com/exchange?from="
        = "https://currency-exchange.p.rapidapi.com/exchange" ++ "?from=" := by decide
    rw [this]
  refine ⟨huri, ?_, ?_, ?_, ?_⟩
  · intro before after key value hkey
    induction before with
    | nil => simp [Values.Get]
    | cons p t ih =>
        obtain ⟨k, v⟩ := p
        have hk : k ≠ key := hkey (k, v) (List.mem_cons_self _ _)
        simp only [List.cons_append, Values.Get, hk, if_false]
        exact ih (fun p hp => hkey p (List.mem_cons_of_mem _ hp))
  · intro queryString key hkey
    induction queryString with
    | nil => rfl
    | cons p t ih =>
        obtain ⟨k, v⟩ := p
        have hk : k ≠ key := hkey (k, v) (List.mem_cons_self _ _)
        simp only [Values.Get, hk, if_false]
        exact ih (fun p hp => hkey p (List.mem_cons_of_mem _ hp))
  · intro env w queryString req hreq
    rw [hconv, sent_eq] at hreq
    split_ifs at hreq
    · simp at hreq
    · simp only [List.mem_singleton] at hreq
      subst hreq
      exact ⟨rfl, huri _ _⟩
  · intro env w queryString hacc
    rw [hconv, sent_eq, ← huri]
    simp [hacc]

/-- C6, at `from=USD&to=EUR&q=7`, where the one URL sent carries `USD` and `EUR` and the
fixed `q=1.0`; at a query string that repeats `from`, where the first value is taken;
and at a request that has only `q`, where both values are empty in the URL. -/
theorem uri_from_query_values_witness :
    Values.Get (usdToEur "7") "from" = "USD" ∧ Values.Get (usdToEur "7") "to" = "EUR" ∧
    Values.Get ([("q", "7")] ++ ("from", "USD") :: [("from", "GBP")]) "from" = "USD" ∧
    (convert stubWorld [] (usdToEur "7")).sent.map Request.url =
      ["https://currency-exchange.p.rapidapi.com/exchange?from=USD&to=EUR&q=1.0"] ∧
    Values.Get [("q", "7")] "from" = "" ∧ Values.Get [("q", "7")] "to" = "" ∧
    (convert stubWorld [] [("q", "7")]).sent.map Request.url =
      ["https://currency-exchange.p.rapidapi.com/exchange?from=&to=&q=1.0"] :=
  ⟨uri_from_query_values.2.1 [] [("to", "EUR"), ("q", "7")] "from" "USD" (by decide),
    uri_from_query_values.2.1 [("from", "USD")] [("q", "7")] "to" "EUR" (by decide),
    uri_from_query_values.2.1 [("q", "7")] [("from", "GBP")] "from" "USD" (by decide),
    (uri_from_query_values.2.2.2.2 stubWorld [] (usdToEur "7") rfl).trans (by decide),
    uri_from_query_values.2.2.1 [("q", "7")] "from" (by decide),
    uri_from_query_values.2.2.1 [("q", "7")] "to" (by decide),
    (uri_from_query_values.2.2.2.2 stubWorld [] [("q", "7")] rfl).trans (by decide)⟩

/-- C7: two runs whose query strings have the same `from`, `to` and `q` values, against
upstreams that give the same ratio (or both fail) at the URI built from them, make the
same calls on the response writer and end the same way; so the status and the
documents written are identical. Nothing else in the query string or in the world
reaches the response. -/
theorem convert_deterministic (env1 env2 : World) (w : ResponseWriter) (qs1 qs2 : Values)
    (hfrom : qs1.Get "from" = qs2.Get "from") (hto : qs1.Get "to" = qs2.Get "to")
    (hq : qs1.Get "q" = qs2.Get "q")
    (hup : (exchangeRatioRequest env1 (uriBuilder (qs1.Get "from") (qs1.Get "to"))).ratio =
           (exchangeRatioRequest env2 (uriBuilder (qs1.Get "from") (qs1.Get "to"))).ratio) :
    (convert env1 w qs1).w = (convert env2 w qs2).w ∧
    (convert env1 w qs1).panicked = (convert env2 w qs2).panicked ∧
    (convert env1 w qs1).w.status = (convert env2 w qs2).w.status ∧
    (convert env1 w qs1).w.body = (convert env2 w qs2).w.body := by
  have hw : (convert env1 w qs1).w = (convert env2 w qs2).w ∧
      (convert env1 w qs1).panicked = (convert env2 w qs2).panicked := by
    cases hr : (exchangeRatioRequest env2 (uriBuilder (qs1.Get "from") (qs1.Get "to"))).ratio with
    | none =>
        rw [hr] at hup
        rw [convert_of_panic env1 w qs1 hup,
          convert_of_panic env2 w qs2 (by rw [← hfrom, ← hto]; exact hr), hq]
        exact ⟨rfl, rfl⟩
    | some r =>
        rw [hr] at hup
        rw [convert_of_ratio env1 w qs1 r hup,
          convert_of_ratio env2 w qs2 r (by rw [← hfrom, ← hto]; exact hr), hq, hfrom, hto]
        exact ⟨rfl, rfl⟩
  exact ⟨hw.1, hw.2, by rw [hw.1], by rw [hw.1]⟩

/-- C7, at an instance: the same request, once with an extra query parameter and
credentials in the environment, gives the same response. -/
theorem convert_deterministic_witness :
    (convert stubWorld [] (usdToEur "2.5")).w
      = (convert keyedWorld [] (("x", "1") :: usdToEur "2.5")).w ∧
    (convert stubWorld [] (usdToEur "2.5")).w.body
      = (convert keyedWorld [] (("x", "1") :: usdToEur "2.5")).w.body :=
  ⟨(convert_deterministic stubWorld keyedWorld [] (usdToEur "2.5") (("x", "1") :: usdToEur "2.5")
      (by decide) (by decide) (by decide) (by decide!)).1,
    (convert_deterministic stubWorld keyedWorld [] (usdToEur "2.5") (("x", "1") :: usdToEur "2.5")
      (by decide) (by decide) (by decide) (by decide!)).2.2.2⟩

/-- C8 fails as stated, in two ways: handed a NaN quantity and conversion,
`responseParser` sets the content type and serializes nothing; and handed status code 0
on a fresh writer, `errorParser` sets the content type and panics in `WriteHeader`, so
that no status is written and no payload serialized. -/
theorem responseParser_nan_writes_nothing :
    responseParser [] "USD" "EUR" ninetyPercent Float64.nan Float64.nan =
      [WriterCall.setHeader "Content-Type" "application/json; charset=utf-8"] ∧
    (responseParser [] "USD" "EUR" ninetyPercent Float64.nan Float64.nan).body = [] ∧
    errorParser [] "boom" 0 =
      ⟨[WriterCall.setHeader "Content-Type" "application/json; charset=utf-8"], true⟩ ∧
    (errorParser [] "boom" 0).w.body = [] := by
  decide!

/-- C8, amended: for every writer, every message and every status code from 100 to 999,
`errorParser` adds to the writer, in this order, the JSON content type, the given status
code and an error payload whose `message` is the given message and whose `code` is that
status code, and returns; the payload is then the last document of the body. For a
status code outside 100..999 on a writer whose status line is not out, it panics after
the content type and the body is unchanged. `responseParser` adds the same content
type and no status code; when ratio, quantity and conversion are all finite it adds one
ConversionResult holding its five arguments in `from`, `to`, `exchange-rate`, `quantity`
and `result`, and when one of the three is not finite it leaves the body unchanged. -/
theorem formatters_effect :
    (∀ (w : ResponseWriter) (errMsg : String) (code : Int), 100 ≤ code → code ≤ 999 →
      errorParser w errMsg code =
        ⟨w ++ [WriterCall.setHeader "Content-Type" "application/json; charset=utf-8",
              WriterCall.writeHeader code,
              WriterCall.write
                [("message", JsonValue.str errMsg), ("code", JsonValue.int code)]], false⟩ ∧
      (errorParser w errMsg code).w.body =
        w.body ++ [[("message", JsonValue.str errMsg), ("code", JsonValue.int code)]]) ∧
    (∀ (w : ResponseWriter) (errMsg : String) (code : Int),
      w.wroteHeader = false → (code < 100 ∨ 999 < code) →
      errorParser w errMsg code =
        ⟨w ++ [WriterCall.setHeader "Content-Type" "application/json; charset=utf-8"], true⟩ ∧
      (errorParser w errMsg code).w.body = w.body) ∧
    (∀ (w : ResponseWriter) (fromCurrency toCurrency : String)
        (ratio quantity conversion : Float64),
      ratio.isFinite = true → quantity.isFinite = true → conversion.isFinite = true →
      responseParser w fromCurrency toCurrency ratio quantity conversion =
        w ++ [WriterCall.setHeader "Content-Type" "application/json; charset=utf-8",
              WriterCall.write
                [("from", JsonValue.str fromCurrency), ("to", JsonValue.str toCurrency),
                 ("exchange-rate", JsonValue.num ratio), ("quantity", JsonValue.num quantity),
                 ("result", JsonValue.num conversion)]] ∧
      (responseParser w fromCurrency toCurrency ratio quantity conversion).body =
        w.body ++ [[("from", JsonValue.str fromCurrency), ("to", JsonValue.str toCurrency),
                 ("exchange-rate", JsonValue.num ratio), ("quantity", JsonValue.num quantity),
                 ("result", JsonValue.num conversion)]]) ∧
    (∀ (w : ResponseWriter) (fromCurrency toCurrency : String)
        (ratio quantity conversion : Float64),
      (ratio.isFinite = false ∨ quantity.isFinite = false ∨ conversion.isFinite = false) →
      responseParser w fromCurrency toCurrency ratio quantity conversion =
        w ++ [WriterCall.setHeader "Content-Type" "application/json; charset=utf-8"] ∧
      (responseParser w fromCurrency toCurrency ratio quantity conversion).body = w.body) ∧
    (∀ (fromCurrency toCurrency : String) (ratio quantity conversion : Float64),
      (responseParser [] fromCurrency toCurrency ratio quantity conversion).status = 200) := by
  refine ⟨?_, ?_, ?_, ?_, ?_⟩
  · intro w errMsg code hlo hhi
    rw [errorParser_eq w errMsg code hlo hhi]
    exact ⟨rfl, by simp [body_append, ResponseWriter.body]⟩
  · intro w errMsg code hw hcode
    rw [errorParser_panic w errMsg code hw hcode]
    exact ⟨rfl, by simp [body_append, ResponseWriter.body]⟩
  · intro w fromCurrency toCurrency ratio quantity conversion h1 h2 h3
    rw [responseParser_eq]
    simp [h1, h2, h3, body_append, ResponseWriter.body]
  · intro w fromCurrency toCurrency ratio quantity conversion h
    rw [responseParser_eq]
    have hc : ¬ (ratio.isFinite = true ∧ quantity.isFinite = true ∧ conversion.isFinite = true) := by
      rintro ⟨h1, h2, h3⟩
      rcases h with h | h | h
      · rw [h1] at h; cases h
      · rw [h2] at h; cases h
      · rw [h3] at h; cases h
    simp [hc, body_append, ResponseWriter.body]
  · intro fromCurrency toCurrency ratio quantity conversion
    rw [responseParser_eq]
    split_ifs <;> rfl

/-- C8, amended, at instances: status code 404 on a fresh writer, the record of the spec,
and status code 1000 on a fresh writer. -/
theorem formatters_effect_witness :
    (errorParser [] "boom" 404).w.body
      = ResponseWriter.body [] ++ [[("message", JsonValue.str "boom"), ("code", JsonValue.int 404)]] ∧
    (errorParser [] "boom" 404).w.status = 404 ∧
    (responseParser [] "USD" "EUR" ninetyPercent (parseFloat "2.5").1 (parseFloat "2.25").1).body
      = ResponseWriter.body [] ++ [[("from", JsonValue.str "USD"), ("to", JsonValue.str "EUR"),
          ("exchange-rate", JsonValue.num ninetyPercent),
          ("quantity", JsonValue.num (parseFloat "2.5").1),
          ("result", JsonValue.num (parseFloat "2.25").1)]] ∧
    (errorParser [] "boom" 1000).panicked = true ∧
    (responseParser [] "USD" "EUR" ninetyPercent (Float64.inf false) (Float64.inf false)).body
      = ResponseWriter.body [] :=
  ⟨(formatters_effect.1 [] "boom" 404 (by decide) (by decide)).2,
    by decide,
    (formatters_effect.2.2.1 [] "USD" "EUR" ninetyPercent (parseFloat "2.5").1
      (parseFloat "2.25").1 (by decide!) (by decide!) (by decide!)).2,
    congrArg Reported.panicked
      (formatters_effect.2.1 [] "boom" 1000 rfl (by decide)).1,
    (formatters_effect.2.2.2.1 [] "USD" "EUR" ninetyPercent (Float64.inf false)
      (Float64.inf false) (Or.inr (Or.inl rfl))).2⟩

/-- C9 fails as stated, in three ways. For the out-of-range `q = "1e999"` the handler
does go on and call the upstream once, but the only document in the response is the
error payload, since the record with an infinite quantity cannot be encoded. For
`q = "abc"` with an unreachable upstream the handler panics after the error payload. And
for `q = "abc"` with an upstream whose decoding leaves `+Inf` in the ratio, the ratio is
returned and again only the error payload is written. -/
theorem convert_after_error_one_record :
    (parseFloat ((usdToEur "1e999").Get "q")).2 ≠ none ∧
    (convert stubWorld [] (usdToEur "1e999")).sent.length = 1 ∧
    (convert stubWorld [] (usdToEur "1e999")).w.body =
      [[("message", JsonValue.str
            "Something is wrong with the quantity parameter provided in the queryString."),
        ("code", JsonValue.int 400)]] ∧
    (parseFloat ((usdToEur "abc").Get "q")).2 ≠ none ∧
    (convert offlineWorld [] (usdToEur "abc")).panicked = true ∧
    (convert offlineWorld [] (usdToEur "abc")).w.body.length = 1 ∧
    (exchangeRatioRequest overflowWorld (uriBuilder "USD" "EUR")).ratio
      = some (Float64.inf false) ∧
    (convert overflowWorld [] (usdToEur "abc")).panicked = false ∧
    (convert overflowWorld [] (usdToEur "abc")).w.body.length = 1 := by
  decide!

/-- C9, amended: when `q` has a syntax error and the upstream client returns a finite
ratio `r`, the handler does not stop after the error payload: it sends exactly one
upstream request, built from `from` and `to`, and then writes a ConversionResult to the
same response, which so carries two documents under the status 400 written first. -/
theorem convert_goes_on_after_malformed_q (env : World) (w : ResponseWriter)
    (queryString : Values) (r : Float64)
    (hq : (parseFloat (queryString.Get "q")).2 = some NumError.errSyn)
    (hr : (exchangeRatioRequest env
      (uriBuilder (queryString.Get "from") (queryString.Get "to"))).ratio = some r)
    (hfin : r.isFinite = true) :
    (convert env w queryString).w =
      w ++ [WriterCall.setHeader "Content-Type" "application/json; charset=utf-8",
            WriterCall.writeHeader 400,
            WriterCall.write
              [("message", JsonValue.str
                  "Something is wrong with the quantity parameter provided in the queryString."),
               ("code", JsonValue.int 400)],
            WriterCall.setHeader "Content-Type" "application/json; charset=utf-8",
            WriterCall.write
              [("from", JsonValue.str (queryString.Get "from")),
               ("to", JsonValue.str (queryString.Get "to")),
               ("exchange-rate", JsonValue.num r),
               ("quantity", JsonValue.num Float64.zero),
               ("result", JsonValue.num (Float64.mul r Float64.zero))]] ∧
    (convert env w queryString).sent =
      [⟨"GET", uriBuilder (queryString.Get "from") (queryString.Get "to"),
        [("X-Rapidapi-Key", env.getenv "RAPID_CURRENCY_KEY"),
         ("X-Rapidapi-Host", env.getenv "RAPID_CURRENCY_HOST")]⟩] ∧
    (convert env w queryString).panicked = false ∧
    (convert env [] queryString).w.status = 400 ∧
    (convert env [] queryString).w.body.length = 2 := by
  have hz : (parseFloat (queryString.Get "q")).1 = Float64.zero := by
    rcases parseFloat_cases (queryString.Get "q") with h1 | ⟨_, h2⟩ | ⟨h3, _⟩
    · rw [h1] at hq; cases hq
    · exact h2
    · rw [h3] at hq; cases hq
  have h3 := Float64.mul_zero_right r hfin
  have h0 : Float64.zero.isFinite = true := rfl
  have hsent := ratio_some_sent env _ r hr
  simp only [convert_of_ratio env _ queryString r hr, hq, hz, ne_eq, not_false_eq_true, if_true,
    responseParser_eq, calcConversion, hfin, h3, h0, and_self, hsent,
    List.append_assoc, List.cons_append, List.nil_append, reduceCtorEq, true_and]
  exact ⟨rfl, rfl⟩

/-- C9, amended, at `q = "abc"` with an upstream ratio of 0.9. -/
theorem convert_goes_on_after_malformed_q_witness :
    (parseFloat ((usdToEur "abc").Get "q")).2 = some NumError.errSyn ∧
    (convert stubWorld [] (usdToEur "abc")).w.status = 400 ∧
    (convert stubWorld [] (usdToEur "abc")).w.body.length = 2 :=
  ⟨by decide!,
    (convert_goes_on_after_malformed_q stubWorld [] (usdToEur "abc") ninetyPercent
      (by decide!) (by decide!) (by decide!)).2.2.2⟩

/-- C10 fails as stated: on `q = "1e999"` the parse reports an error and the quantity the
handler carries on with is `+Inf`, not 0; no document with a `quantity` is written. -/
theorem out_of_range_quantity_is_infinite :
    parseFloat ((usdToEur "1e999").Get "q") = (Float64.inf false, some NumError.errRange) ∧
    (parseFloat ((usdToEur "1e999").Get "q")).1 ≠ Float64.zero ∧
    (∀ doc ∈ (convert stubWorld [] (usdToEur "1e999")).w.body,
      JsonObject.field doc "quantity" = none) := by
  decide!

/-- C10, amended: a `q` with a syntax error leaves the quantity at 0; then, when the
upstream client returns a ratio `r`, every document of the response that has a
`quantity` has `quantity` 0 and `result` `r * 0`, and when `r` is finite the
ConversionResult is written after the error payload. An out-of-range `q` leaves the
quantity at an infinity, and then the error payload is the only document of the
response. -/
theorem quantity_after_parse_error (s : String) :
    ((parseFloat s).2 = some NumError.errSyn → (parseFloat s).1 = Float64.zero) ∧
    ((parseFloat s).2 = some NumError.errRange → ∃ neg, (parseFloat s).1 = Float64.inf neg) ∧
    (∀ (env : World) (queryString : Values) (r : Float64),
      queryString.Get "q" = s → (parseFloat s).2 = some NumError.errSyn →
      (exchangeRatioRequest env
        (uriBuilder (queryString.Get "from") (queryString.Get "to"))).ratio = some r →
      (∀ doc ∈ (convert env [] queryString).w.body, ∀ v,
        JsonObject.field doc "quantity" = some v →
          v = JsonValue.num Float64.zero ∧
          JsonObject.field doc "result" = some (JsonValue.num (Float64.mul r Float64.zero))) ∧
      (r.isFinite = true →
        (convert env [] queryString).w.body =
          [[("message", JsonValue.str
                "Something is wrong with the quantity parameter provided in the queryString."),
            ("code", JsonValue.int 400)],
           [("from", JsonValue.str (queryString.Get "from")),
            ("to", JsonValue.str (queryString.Get "to")),
            ("exchange-rate", JsonValue.num r),
            ("quantity", JsonValue.num Float64.zero),
            ("result", JsonValue.num (calcConversion Float64.zero r))]])) ∧
    (∀ (env : World) (queryString : Values),
      queryString.Get "q" = s → (parseFloat s).2 = some NumError.errRange →
      (convert env [] queryString).w.body =
        [[("message", JsonValue.str
              "Something is wrong with the quantity parameter provided in the queryString."),
          ("code", JsonValue.int 400)]]) := by
  have hsyn : (parseFloat s).2 = some NumError.errSyn → (parseFloat s).1 = Float64.zero := by
    intro h
    rcases parseFloat_cases s with h1 | ⟨_, h2⟩ | ⟨h3, _⟩
    · rw [h1] at h; cases h
    · exact h2
    · rw [h3] at h; cases h
  have hrange : (parseFloat s).2 = some NumError.errRange →
      ∃ neg, (parseFloat s).1 = Float64.inf neg := by
    intro h
    rcases parseFloat_cases s with h1 | ⟨h2, _⟩ | ⟨_, h3⟩
    · rw [h1] at h; cases h
    · rw [h2] at h; cases h
    · exact h3
  refine ⟨hsyn, hrange, ?_, ?_⟩
  · intro env queryString r hs herr hr
    have h0 : Float64.zero.isFinite = true := rfl
    refine ⟨?_, ?_⟩
    · intro doc hdoc v hv
      simp only [convert_of_ratio env _ queryString r hr, hs, herr, hsyn herr, ne_eq,
        not_false_eq_true, if_true, responseParser_eq, calcConversion, body_append,
        List.nil_append, reduceCtorEq] at hdoc
      by_cases hfin : r.isFinite = true ∧ Float64.zero.isFinite = true ∧
          (Float64.mul r Float64.zero).isFinite = true <;>
        simp only [hfin, ResponseWriter.body, if_true, if_false, List.cons_append,
          List.nil_append, List.append_nil, List.mem_cons, List.mem_singleton,
          List.not_mem_nil, or_false] at hdoc
      · rcases hdoc with hdoc | hdoc <;> subst hdoc <;> simp [JsonObject.field] at hv ⊢
        exact hv.symm
      · subst hdoc
        simp [JsonObject.field] at hv
    · intro hfin
      have h3 := Float64.mul_zero_right r hfin
      simp only [convert_of_ratio env _ queryString r hr, hs, herr, hsyn herr, ne_eq,
        not_false_eq_true, if_true, responseParser_eq, calcConversion, hfin, h3,
        h0, and_self, List.append_assoc, List.cons_append, List.nil_append,
        reduceCtorEq]
      rfl
  · intro env queryString hs herr
    obtain ⟨neg, hinf⟩ := hrange herr
    cases hr : (exchangeRatioRequest env
        (uriBuilder (queryString.Get "from") (queryString.Get "to"))).ratio with
    | none =>
        simp only [convert_of_panic env _ queryString hr, hs, herr, ne_eq, not_false_eq_true,
          if_true, reduceCtorEq]
        rfl
    | some r =>
        have hni : (Float64.inf neg).isFinite = false := rfl
        simp only [convert_of_ratio env _ queryString r hr, hs, herr, hinf, ne_eq,
          not_false_eq_true, if_true, responseParser_eq, hni,
          reduceCtorEq, Bool.false_eq_true, false_and, and_false, if_false]
        rfl

/-- C10, amended, at `q = "abc"` (syntax error, quantity 0, with an upstream ratio of 0.9)
and at `q = "-1e999"` (out of range, quantity `-Inf`). -/
theorem quantity_after_parse_error_witness :
    (parseFloat "abc").2 = some NumError.errSyn ∧ (parseFloat "abc").1 = Float64.zero ∧
    (convert stubWorld [] (usdToEur "abc")).w.body =
        [[("message", JsonValue.str
              "Something is wrong with the quantity parameter provided in the queryString."),
          ("code", JsonValue.int 400)],
         [("from", JsonValue.str ((usdToEur "abc").Get "from")),
          ("to", JsonValue.str ((usdToEur "abc").Get "to")),
          ("exchange-rate", JsonValue.num ninetyPercent),
          ("quantity", JsonValue.num Float64.zero),
          ("result", JsonValue.num (calcConversion Float64.zero ninetyPercent))]] ∧
    (parseFloat "-1e999").2 = some NumError.errRange ∧
    (∃ neg, (parseFloat "-1e999").1 = Float64.inf neg) ∧
    (convert stubWorld [] (usdToEur "-1e999")).w.body =
        [[("message", JsonValue.str
              "Something is wrong with the quantity parameter provided in the queryString."),
          ("code", JsonValue.int 400)]] :=
  ⟨by decide!, (quantity_after_parse_error "abc").1 (by decide!),
    ((quantity_after_parse_error "abc").2.2.1 stubWorld (usdToEur "abc") ninetyPercent
      (by decide) (by decide!) (by decide!)).2 (by decide!),
    by decide!,
    (quantity_after_parse_error "-1e999").2.1 (by decide!),
    (quantity_after_parse_error "-1e999").2.2.2 stubWorld (usdToEur "-1e999") (by decide)
      (by decide!)⟩

end Conbot
